import Mathlib

/-
Verification of the span-writer core of jaeger-clickhouse
(src/storage/clickhousespanstore/writer.go).

The scheduler loop `backgroundWriter` is embedded as a deterministic step
function over an explicit event type: the three arms of its `select`
statement (span arrival on the `spans` channel, timer tick, shutdown signal
on the `finish` channel) become the three constructors of `Event`.  Wall
clock time is modelled as a natural number carried by each event; calls to
the worker pool (`pool.WriteBatch`, `pool.Close`) become emitted `Action`s.
`WriteSpan` is embedded as a pure function from an optional metadata
carrier to the enqueued record and the returned error.  The `sync.Once`
guarded metric registration is embedded as explicit state passing with the
`MustRegister` panic modelled as an `Except` error.
-/

namespace JaegerClickhouse

/-- A span paired with its tenant label, mirroring `SpanAndTenant` in
writer.go.  The span payload is opaque to this core, hence a type
parameter. -/
structure SpanAndTenant (α : Type) where
  span : α
  tenant : String
  deriving DecidableEq, Repr

/-- Request-scoped metadata carrier, mirroring grpc `metadata.MD`: a map
from keys to lists of string values. -/
def MD : Type := String → List String

/-- Mirrors `md.Get(key)`: the list of values stored under a key. -/
def MD.Get (md : MD) (key : String) : List String := md key

/-- The well-known tenant metadata key consulted by `WriteSpan`. -/
def xTenantKey : String := "x-tenant"

/-- Embeds `SpanWriter.WriteSpan`.  The receiver's only field consulted
would be the channel; we additionally pass the construction-time default
tenant (`workerParams.tenant`) so that its non-use is statable.  The
context is `none` when `metadata.FromIncomingContext` reports no carrier.
Result: the record sent on the `spans` channel (if any) and the returned
error (Go `nil` becomes `none`). -/
def WriteSpan (defaultTenant : String) (ctx : Option MD) (span : α) :
    Option (SpanAndTenant α) × Option String :=
  match ctx with
  | none => (none, none)
  | some md =>
    match md.Get xTenantKey with
    | [] => (some ⟨span, ""⟩, none)
    | t :: _ => (some ⟨span, t⟩, none)

/-- The tenant label `WriteSpan` attaches when a carrier is present: the
first value under the tenant key, or the empty string when the key yields
no values. -/
def tenantLabel (md : MD) : String :=
  match md.Get xTenantKey with
  | [] => ""
  | t :: _ => t

/-- One iteration's resolved `select` arm in `backgroundWriter`, with the
wall-clock time (a natural number) at which the arm fires. -/
inductive Event (α : Type) where
  | arrive (now : Nat) (s : SpanAndTenant α)
  | tick (now : Nat)
  | finishSig (now : Nat)
  deriving DecidableEq, Repr

/-- The time at which an event fires. -/
def Event.time : Event α → Nat
  | .arrive n _ => n
  | .tick n => n
  | .finishSig n => n

/-- Calls the scheduler makes into the worker pool. -/
inductive Action (α : Type) where
  | writeBatch (b : List (SpanAndTenant α))
  | poolClose
  deriving DecidableEq, Repr

/-- The scheduler-owned state of `backgroundWriter`: the in-progress
batch, the time of the last flush (`last`), the deadline the timer is
armed for, and the two prometheus flush counters. -/
structure WriterState (α : Type) where
  batch : List (SpanAndTenant α)
  last : Nat
  timerArm : Nat
  sizeCount : Nat
  timerCount : Nat
  deriving DecidableEq, Repr

/-- State at the top of the loop: empty batch of capacity `size`,
`last = time.Now()`, timer armed for one delay period. -/
def initState (α : Type) (startTime delay : Nat) : WriterState α :=
  { batch := [], last := startTime, timerArm := startTime + delay,
    sizeCount := 0, timerCount := 0 }

/-- The tail of each loop iteration in `backgroundWriter`: the
`if flush` block (hand the batch to the pool, reset it, set
`last = time.Now()`) followed by the `if finish` block (`pool.Close()`). -/
def flushIf (flush fin : Bool) (now : Nat) (st1 : WriterState α) :
    WriterState α × List (Action α) × Bool :=
  if flush then
    ({ st1 with batch := [], last := now },
     Action.writeBatch st1.batch :: (if fin then [Action.poolClose] else []),
     fin)
  else (st1, (if fin then [Action.poolClose] else []), fin)

/-- One iteration of the `for` loop in `backgroundWriter`, given the
resolved `select` arm.  Returns the state after the iteration, the pool
calls made during it, and the `finish` flag (true exactly when the loop
`break`s after this iteration). -/
def step (delay size : Nat) (st : WriterState α) : Event α → WriterState α × List (Action α) × Bool
  | .arrive now s =>
    let batch := st.batch ++ [s]
    let flush := decide (batch.length = size)
    flushIf flush false now
      { st with batch := batch,
                sizeCount := if flush then st.sizeCount + 1 else st.sizeCount }
  | .tick now =>
    let flush := decide (delay < now - st.last ∧ st.batch.length ≠ 0)
    flushIf flush false now
      { st with timerArm := now + delay,
                timerCount := if flush then st.timerCount + 1 else st.timerCount }
  | .finishSig now =>
    flushIf (decide (st.batch.length ≠ 0)) true now st

/-- Runs the scheduler loop over a list of resolved events, stopping after
the iteration in which `finish` is observed (later events are never
consumed, as the loop has exited). -/
def runFrom (delay size : Nat) (st : WriterState α) :
    List (Event α) → WriterState α × List (Action α)
  | [] => (st, [])
  | e :: es =>
    let r := step delay size st e
    if r.2.2 then (r.1, r.2.1)
    else
      let rest := runFrom delay size r.1 es
      (rest.1, r.2.1 ++ rest.2)

/-- The batches handed to the pool via `WriteBatch`, in hand-off order. -/
def flushedBatches : List (Action α) → List (List (SpanAndTenant α))
  | [] => []
  | Action.writeBatch b :: rest => b :: flushedBatches rest
  | Action.poolClose :: rest => flushedBatches rest

/-- Process-wide metric-registration state: whether the `sync.Once` guard
`registerWriterMetrics` has run, and how many times each of the two
counters has been registered with the prometheus registry. -/
structure MetricsState where
  onceDone : Bool
  sizeRegCount : Nat
  intervalRegCount : Nat
  deriving DecidableEq, Repr

/-- Mirrors `prometheus.MustRegister` for a single collector: panics
(modelled as `Except.error`) when the collector is already registered,
otherwise records the registration. -/
def mustRegister (count : Nat) : Except Unit Nat :=
  if count ≠ 0 then Except.error () else Except.ok (count + 1)

/-- Embeds `SpanWriter.registerMetrics`: under the `sync.Once` guard,
registers both flush counters; a second run of the guard body is skipped
entirely. -/
def registerMetrics (st : MetricsState) : Except Unit MetricsState :=
  if st.onceDone then Except.ok st
  else
    match mustRegister st.sizeRegCount with
    | Except.error e => Except.error e
    | Except.ok s =>
      match mustRegister st.intervalRegCount with
      | Except.error e => Except.error e
      | Except.ok i =>
        Except.ok { onceDone := true, sizeRegCount := s, intervalRegCount := i }

/-- State of the process before any `SpanWriter` is constructed. -/
def initMetrics : MetricsState := ⟨false, 0, 0⟩

/-- Constructing `k` writer instances calls `registerMetrics` `k` times in
sequence. -/
def registerN : Nat → MetricsState → Except Unit MetricsState
  | 0, st => Except.ok st
  | n + 1, st =>
    match registerMetrics st with
    | Except.error e => Except.error e
    | Except.ok st1 => registerN n st1

/-! Helper lemmas shared by the claim theorems. -/

lemma flushedBatches_append (a b : List (Action α)) :
    flushedBatches (a ++ b) = flushedBatches a ++ flushedBatches b := by
  induction a with
  | nil => rfl
  | cons hd tl ih => cases hd <;> simp [flushedBatches, ih]

/-- Every record in the post-iteration batch was already present before
the iteration or arrived during it. -/
lemma step_batch_mem (d sz : Nat) (st : WriterState α) (e : Event α) (x : SpanAndTenant α)
    (hx : x ∈ (step d sz st e).1.batch) :
    x ∈ st.batch ∨ ∃ n, e = Event.arrive n x := by
  cases e with
  | arrive n s =>
    simp only [step, flushIf] at hx
    split at hx
    · simp at hx
    · simp at hx
      rcases hx with h | h
      · exact Or.inl h
      · exact Or.inr ⟨n, by rw [h]⟩
  | tick n =>
    simp only [step, flushIf] at hx
    split at hx
    · simp at hx
    · exact Or.inl hx
  | finishSig n =>
    simp only [step, flushIf] at hx
    split at hx
    · simp at hx
    · exact Or.inl hx

/-- Every record in a batch flushed during one iteration was already
present before the iteration or arrived during it. -/
lemma step_flushed_mem (d sz : Nat) (st : WriterState α) (e : Event α)
    (b : List (SpanAndTenant α)) (x : SpanAndTenant α)
    (hb : b ∈ flushedBatches (step d sz st e).2.1) (hx : x ∈ b) :
    x ∈ st.batch ∨ ∃ n, e = Event.arrive n x := by
  cases e with
  | arrive n s =>
    simp only [step, flushIf] at hb
    split at hb
    · simp [flushedBatches] at hb
      subst hb
      simp at hx
      rcases hx with h | h
      · exact Or.inl h
      · exact Or.inr ⟨n, by rw [h]⟩
    · simp [flushedBatches] at hb
  | tick n =>
    simp only [step, flushIf] at hb
    split at hb
    · simp [flushedBatches] at hb
      subst hb
      exact Or.inl hx
    · simp [flushedBatches] at hb
  | finishSig n =>
    simp only [step, flushIf] at hb
    split at hb
    · simp [flushedBatches] at hb
      subst hb
      exact Or.inl hx
    · simp [flushedBatches] at hb

/-- Every record in any batch flushed over a whole run was in the starting
batch or arrived as one of the run's events. -/
lemma runFrom_flushed_mem (d sz : Nat) :
    ∀ (es : List (Event α)) (st : WriterState α) (b : List (SpanAndTenant α))
      (x : SpanAndTenant α),
      b ∈ flushedBatches (runFrom d sz st es).2 → x ∈ b →
      x ∈ st.batch ∨ ∃ n, Event.arrive n x ∈ es
  | [], st, b, x, hb, _ => by simp [runFrom, flushedBatches] at hb
  | e :: es, st, b, x, hb, hx => by
    simp only [runFrom] at hb
    split at hb
    · rcases step_flushed_mem d sz st e b x hb hx with h | ⟨n, rfl⟩
      · exact Or.inl h
      · exact Or.inr ⟨n, List.mem_cons_self _ _⟩
    · rw [flushedBatches_append] at hb
      rcases List.mem_append.mp hb with h | h
      · rcases step_flushed_mem d sz st e b x h hx with h2 | ⟨n, rfl⟩
        · exact Or.inl h2
        · exact Or.inr ⟨n, List.mem_cons_self _ _⟩
      · rcases runFrom_flushed_mem d sz es _ b x h hx with h2 | ⟨n, hn⟩
        · rcases step_batch_mem d sz st e x h2 with h3 | ⟨n, rfl⟩
          · exact Or.inl h3
          · exact Or.inr ⟨n, List.mem_cons_self _ _⟩
        · exact Or.inr ⟨n, List.mem_cons_of_mem _ hn⟩

/-- The batch-length invariant `len(batch) < size` is preserved by every
iteration. -/
lemma step_batch_length (d sz : Nat) (st : WriterState α) (e : Event α)
    (h : st.batch.length < sz) : (step d sz st e).1.batch.length < sz := by
  cases e <;> simp only [step, flushIf] <;> split <;> simp_all <;> omega

/-- Under the invariant, every batch flushed in one iteration has length
between 1 and the capacity. -/
lemma step_flushed_length (d sz : Nat) (st : WriterState α) (e : Event α)
    (b : List (SpanAndTenant α)) (h : st.batch.length < sz)
    (hb : b ∈ flushedBatches (step d sz st e).2.1) :
    1 ≤ b.length ∧ b.length ≤ sz := by
  cases e with
  | arrive n s =>
    simp only [step, flushIf] at hb
    split at hb
    · next hc =>
      simp [flushedBatches] at hb
      subst hb
      simp only [decide_eq_true_eq, List.length_append, List.length_cons,
        List.length_nil] at hc ⊢
      omega
    · simp [flushedBatches] at hb
  | tick n =>
    simp only [step, flushIf] at hb
    split at hb
    · next hc =>
      simp [flushedBatches] at hb
      subst hb
      simp only [decide_eq_true_eq] at hc
      omega
    · simp [flushedBatches] at hb
  | finishSig n =>
    simp only [step, flushIf] at hb
    split at hb
    · next hc =>
      simp [flushedBatches] at hb
      subst hb
      simp only [decide_eq_true_eq] at hc
      omega
    · simp [flushedBatches] at hb

/-- Under the invariant, every batch flushed over a whole run has length
between 1 and the capacity. -/
lemma runFrom_flushed_length (d sz : Nat) :
    ∀ (es : List (Event α)) (st : WriterState α) (b : List (SpanAndTenant α)),
      st.batch.length < sz →
      b ∈ flushedBatches (runFrom d sz st es).2 →
      1 ≤ b.length ∧ b.length ≤ sz
  | [], _, _, _, hb => by simp [runFrom, flushedBatches] at hb
  | e :: es, st, b, h, hb => by
    simp only [runFrom] at hb
    split at hb
    · exact step_flushed_length d sz st e b h hb
    · rw [flushedBatches_append] at hb
      rcases List.mem_append.mp hb with h1 | h1
      · exact step_flushed_length d sz st e b h h1
      · exact runFrom_flushed_length d sz es _ b (step_batch_length d sz st e h) h1

/-- With no span arrivals, the batch stays empty and no `WriteBatch` call
is ever made, whatever ticks and shutdown signals occur. -/
lemma no_arrivals_no_flush (d sz : Nat) :
    ∀ (es : List (Event α)) (st : WriterState α), st.batch = [] →
      (∀ n s, Event.arrive n s ∉ es) →
      flushedBatches (runFrom d sz st es).2 = []
  | [], _, _, _ => rfl
  | e :: es, st, hst, hes => by
    have htail : ∀ n s, Event.arrive n s ∉ es := fun n s hn =>
      hes n s (List.mem_cons_of_mem _ hn)
    cases e with
    | arrive n s => exact absurd (List.mem_cons_self _ _) (hes n s)
    | tick n =>
      have hstep : step d sz st (Event.tick n) =
          ({ st with timerArm := n + d }, [], false) := by
        simp [step, flushIf, hst]
      have ih := no_arrivals_no_flush d sz es { st with timerArm := n + d }
        (by simp [hst]) htail
      simp only [runFrom, hstep]
      simpa [flushedBatches] using ih
    | finishSig n =>
      have hstep : step d sz st (Event.finishSig n) =
          (st, [Action.poolClose], true) := by
        simp [step, flushIf, hst]
      simp [runFrom, hstep, flushedBatches]

/-- Scheduler iterations other than the shutdown one never set the finish
flag. -/
lemma step_not_finish (d sz : Nat) (st : WriterState α) (e : Event α)
    (he : ∀ n, e ≠ Event.finishSig n) : (step d sz st e).2.2 = false := by
  cases e with
  | arrive n s => simp [step, flushIf]; split <;> rfl
  | tick n => simp [step, flushIf]; split <;> rfl
  | finishSig n => exact absurd rfl (he n)

/-- A run whose last event is the shutdown signal ends with `pool.Close`
as its final pool call. -/
lemma runFrom_ends_poolClose (d sz : Nat) :
    ∀ (es : List (Event α)) (st : WriterState α) (now : Nat),
      (∀ n, Event.finishSig n ∉ es) →
      ((runFrom d sz st (es ++ [Event.finishSig now])).2).getLast? =
        some Action.poolClose
  | [], st, now, _ => by
    simp only [List.nil_append, runFrom, step, flushIf]
    split <;> simp
  | e :: es, st, now, hes => by
    have hhead : ∀ n, e ≠ Event.finishSig n := fun n hn =>
      hes n (hn ▸ List.mem_cons_self _ _)
    have htail : ∀ n, Event.finishSig n ∉ es := fun n hn =>
      hes n (List.mem_cons_of_mem _ hn)
    have hfin := step_not_finish d sz st e hhead
    have ih := runFrom_ends_poolClose d sz es (step d sz st e).1 now htail
    have hne : (runFrom d sz (step d sz st e).1 (es ++ [Event.finishSig now])).2 ≠ [] := by
      intro hnil
      rw [hnil] at ih
      simp at ih
    simp only [List.cons_append, runFrom, hfin, Bool.false_eq_true, if_false,
      List.append_eq]
    rw [List.getLast?_append_of_ne_nil _ hne]
    exact ih

lemma registerN_done (m : Nat) :
    registerN m ⟨true, 1, 1⟩ = Except.ok ⟨true, 1, 1⟩ := by
  induction m with
  | zero => rfl
  | succ n ih => simp [registerN, registerMetrics, ih]

/-! The claim theorems. -/

/-- C1: with batchCapacity ≥ 1, every batch handed to the worker pool via
`WriteBatch` over any run of the scheduler satisfies
`1 ≤ len(batch) ≤ batchCapacity`; no size-, time-, or shutdown-triggered
flush ever passes an empty batch to the pool. -/
theorem every_flushed_batch_bounded (d sz t0 : Nat) (es : List (Event α))
    (b : List (SpanAndTenant α)) (hsz : 1 ≤ sz)
    (hb : b ∈ flushedBatches (runFrom d sz (initState α t0 d) es).2) :
    1 ≤ b.length ∧ b.length ≤ sz :=
  runFrom_flushed_length d sz es _ b (by simp only [initState]; simpa using hsz) hb

theorem every_flushed_batch_bounded_witness :
    1 ≤ 2 ∧
    ([⟨0, "a"⟩, ⟨1, "b"⟩] : List (SpanAndTenant Nat)) ∈
      flushedBatches (runFrom 1 2 (initState Nat 0 1)
        [Event.arrive 1 ⟨0, "a"⟩, Event.arrive 2 ⟨1, "b"⟩]).2 ∧
    1 ≤ ([⟨0, "a"⟩, ⟨1, "b"⟩] : List (SpanAndTenant Nat)).length ∧
    ([⟨0, "a"⟩, ⟨1, "b"⟩] : List (SpanAndTenant Nat)).length ≤ 2 :=
  ⟨by decide, by decide,
   every_flushed_batch_bounded 1 2 0 [Event.arrive 1 ⟨0, "a"⟩, Event.arrive 2 ⟨1, "b"⟩]
     [⟨0, "a"⟩, ⟨1, "b"⟩] (by decide) (by decide)⟩

/-- C3: with capacity 3, submitting A, B, C with no intervening tick or
shutdown yields exactly one size-triggered flush of `[A, B, C]` in arrival
order, with the size counter incremented by exactly 1 and the timer
counter unchanged; in general, an arrival that brings the batch length up
to the capacity triggers a size-flush in that same iteration. -/
theorem size_flush_at_capacity (d t0 t1 t2 t3 : Nat) (A B C : SpanAndTenant α) :
    ((runFrom d 3 (initState α t0 d)
        [Event.arrive t1 A, Event.arrive t2 B, Event.arrive t3 C]).2 =
      [Action.writeBatch [A, B, C]] ∧
     (runFrom d 3 (initState α t0 d)
        [Event.arrive t1 A, Event.arrive t2 B, Event.arrive t3 C]).1.sizeCount = 1 ∧
     (runFrom d 3 (initState α t0 d)
        [Event.arrive t1 A, Event.arrive t2 B, Event.arrive t3 C]).1.timerCount = 0) ∧
    (∀ (sz now : Nat) (st : WriterState α) (s : SpanAndTenant α),
      st.batch.length + 1 = sz →
      (step d sz st (Event.arrive now s)).2.1 = [Action.writeBatch (st.batch ++ [s])]) := by
  constructor
  · simp [runFrom, step, flushIf, initState]
  · intro sz now st s h
    simp [step, flushIf, h]

theorem size_flush_at_capacity_witness :
    ([⟨5, "x"⟩] : List (SpanAndTenant Nat)).length + 1 = 2 ∧
    (step 1 2
        ({ batch := [⟨5, "x"⟩], last := 0, timerArm := 1,
           sizeCount := 0, timerCount := 0 } : WriterState Nat)
        (Event.arrive 7 ⟨6, "y"⟩)).2.1 =
      [Action.writeBatch ([⟨5, "x"⟩] ++ [⟨6, "y"⟩])] :=
  ⟨by decide,
   (size_flush_at_capacity 1 0 0 0 0 ⟨0, ""⟩ ⟨0, ""⟩ ⟨0, ""⟩).2 2 7
     { batch := [⟨5, "x"⟩], last := 0, timerArm := 1,
       sizeCount := 0, timerCount := 0 }
     ⟨6, "y"⟩ (by decide)⟩

/-- C4: a timer tick re-arms the timer for a full period, never finishes
the loop, and triggers a time-flush exactly when more than one delay has
elapsed since the last flush and the batch is non-empty; with no arrivals
at all, no batch is ever handed to the pool regardless of elapsed time. -/
theorem timer_tick_flush_iff :
    (∀ (α : Type) (d sz now : Nat) (st : WriterState α),
      (step d sz st (Event.tick now)).1.timerArm = now + d ∧
      (step d sz st (Event.tick now)).2.2 = false ∧
      (step d sz st (Event.tick now)).2.1 =
        (if d < now - st.last ∧ st.batch.length ≠ 0
         then [Action.writeBatch st.batch] else [])) ∧
    (∀ (α : Type) (d sz t0 : Nat) (es : List (Event α)),
      (∀ n s, Event.arrive n s ∉ es) →
      flushedBatches (runFrom d sz (initState α t0 d) es).2 = []) := by
  constructor
  · intro α d sz now st
    refine ⟨?_, ?_, ?_⟩ <;> simp only [step, flushIf]
    · split <;> rfl
    · split <;> rfl
    · split
      · next hc =>
        rw [if_pos (of_decide_eq_true hc)]
        simp
      · next hc =>
        rw [if_neg (fun hp => hc (decide_eq_true hp))]
        simp
  · intro α d sz t0 es hes
    exact no_arrivals_no_flush d sz es _ (by simp [initState]) hes

theorem timer_tick_flush_iff_witness :
    (∀ n s, Event.arrive n s ∉
      ([Event.tick 5, Event.tick 9, Event.finishSig 12] : List (Event Nat))) ∧
    flushedBatches (runFrom 1 3 (initState Nat 0 1)
      [Event.tick 5, Event.tick 9, Event.finishSig 12]).2 = [] :=
  ⟨by intro n s h; simp at h,
   timer_tick_flush_iff.2 Nat 1 3 0 [Event.tick 5, Event.tick 9, Event.finishSig 12]
     (by intro n s h; simp at h)⟩

/-- C5: on the shutdown signal the scheduler flushes exactly when the
batch is non-empty, terminates the loop after that iteration (later
events are never consumed), and a shutdown-triggered flush increments
neither the size-flush counter nor the timer-flush counter. -/
theorem shutdown_flush_only_nonempty :
    ∀ (α : Type) (d sz now : Nat) (st : WriterState α),
      (step d sz st (Event.finishSig now)).2.2 = true ∧
      (step d sz st (Event.finishSig now)).2.1 =
        ((if st.batch.length ≠ 0 then [Action.writeBatch st.batch] else []) ++
          [Action.poolClose]) ∧
      (step d sz st (Event.finishSig now)).1.sizeCount = st.sizeCount ∧
      (step d sz st (Event.finishSig now)).1.timerCount = st.timerCount ∧
      (∀ es : List (Event α), runFrom d sz st (Event.finishSig now :: es) =
        ((step d sz st (Event.finishSig now)).1,
         (step d sz st (Event.finishSig now)).2.1)) := by
  intro α d sz now st
  by_cases h : st.batch.length ≠ 0 <;>
    exact ⟨by simp [step, flushIf, h], by simp [step, flushIf, h],
      by simp [step, flushIf, h], by simp [step, flushIf, h],
      fun es => by simp [runFrom, step, flushIf, h]⟩

/-- C2: submitting span A and then closing, with no other flush trigger
(no tick, capacity at least 2 so no size-flush), yields exactly one
shutdown-triggered flush of `[A]` followed by the pool's `Close`; in
general, in any run whose last event is the shutdown signal, the pool's
`Close` is the final pool call made before the loop exits, so the drain
barrier (and hence the writer's `Close()`) is released only after the
batch hand-off and the pool's `Close` have both happened. -/
theorem close_drains_batch_then_pool :
    (∀ (α : Type) (d sz t0 t1 t2 : Nat) (A : SpanAndTenant α), 2 ≤ sz →
      (runFrom d sz (initState α t0 d) [Event.arrive t1 A, Event.finishSig t2]).2 =
        [Action.writeBatch [A], Action.poolClose]) ∧
    (∀ (α : Type) (d sz now : Nat) (st : WriterState α) (es : List (Event α)),
      (∀ n, Event.finishSig n ∉ es) →
      ((runFrom d sz st (es ++ [Event.finishSig now])).2).getLast? =
        some Action.poolClose) := by
  constructor
  · intro α d sz t0 t1 t2 A hsz
    have h1 : ¬((1 : Nat) = sz) := by omega
    simp [runFrom, step, flushIf, initState, h1]
  · intro α d sz now st es hes
    exact runFrom_ends_poolClose d sz es st now hes

theorem close_drains_batch_then_pool_witness :
    2 ≤ 2 ∧
    (runFrom 1 2 (initState Nat 0 1)
      [Event.arrive 1 ⟨5, "t"⟩, Event.finishSig 2]).2 =
      [Action.writeBatch [⟨5, "t"⟩], Action.poolClose] ∧
    (∀ n, Event.finishSig n ∉
      ([Event.arrive 1 (⟨5, "t"⟩ : SpanAndTenant Nat)] : List (Event Nat))) ∧
    ((runFrom 1 2 (initState Nat 0 1)
      ([Event.arrive 1 ⟨5, "t"⟩] ++ [Event.finishSig 2])).2).getLast? =
      some Action.poolClose :=
  ⟨by decide,
   close_drains_batch_then_pool.1 Nat 1 2 0 1 2 ⟨5, "t"⟩ (by decide),
   by intro n h; simp at h,
   close_drains_batch_then_pool.2 Nat 1 2 2 (initState Nat 0 1)
     [Event.arrive 1 ⟨5, "t"⟩] (by intro n h; simp at h)⟩

/-- C8: for every context and every span, `WriteSpan` returns a nil
error: no downstream failure, backpressure condition, or drop is ever
surfaced to the caller. -/
theorem writeSpan_always_nil_error (dflt : String) (ctx : Option MD) (span : α) :
    (WriteSpan dflt ctx span).2 = none := by
  cases ctx with
  | none => rfl
  | some md => cases h : md.Get xTenantKey <;> simp [WriteSpan, h]

/-- C6: a `WriteSpan` call whose context carries no metadata carrier at
all enqueues nothing and returns no error; and since every record in any
flushed batch of any run stems from an `arrive` event (an enqueue), such a
span never appears in any subsequently flushed batch. -/
theorem writeSpan_no_carrier_silently_dropped :
    (∀ (α : Type) (dflt : String) (span : α),
      WriteSpan dflt (none : Option MD) span = (none, none)) ∧
    (∀ (α : Type) (d sz t0 : Nat) (es : List (Event α))
       (b : List (SpanAndTenant α)) (x : SpanAndTenant α),
      b ∈ flushedBatches (runFrom d sz (initState α t0 d) es).2 → x ∈ b →
      ∃ n, Event.arrive n x ∈ es) := by
  constructor
  · intro α dflt span
    rfl
  · intro α d sz t0 es b x hb hx
    rcases runFrom_flushed_mem d sz es _ b x hb hx with h | h
    · simp [initState] at h
    · exact h

theorem writeSpan_no_carrier_silently_dropped_witness :
    WriteSpan "dflt" (none : Option MD) (0 : Nat) = (none, none) ∧
    ∃ n, Event.arrive n (⟨0, "t"⟩ : SpanAndTenant Nat) ∈
      [Event.arrive 5 (⟨0, "t"⟩ : SpanAndTenant Nat), Event.finishSig 9] :=
  ⟨writeSpan_no_carrier_silently_dropped.1 Nat "dflt" 0,
   writeSpan_no_carrier_silently_dropped.2 Nat 1 4 0
     [Event.arrive 5 ⟨0, "t"⟩, Event.finishSig 9] [⟨0, "t"⟩] ⟨0, "t"⟩
     (by decide) (by decide)⟩

/-- C7: the tenant label attached at `WriteSpan` time is the first value
under the tenant key, or the empty string when the value list is empty;
and every record in a batch handed to the pool is verbatim one of the
enqueued records, so the tenant carried in the flushed batch equals the
tenant attached at submit time. -/
theorem tenant_label_roundtrip :
    (∀ (α : Type) (dflt : String) (md : MD) (span : α),
      (WriteSpan dflt (some md) span).1 = some ⟨span, tenantLabel md⟩) ∧
    (∀ (α : Type) (d sz t0 : Nat) (es : List (Event α))
       (b : List (SpanAndTenant α)) (x : SpanAndTenant α),
      b ∈ flushedBatches (runFrom d sz (initState α t0 d) es).2 → x ∈ b →
      ∃ n, Event.arrive n ⟨x.span, x.tenant⟩ ∈ es) := by
  constructor
  · intro α dflt md span
    cases h : md.Get xTenantKey <;> simp [WriteSpan, tenantLabel, h]
  · intro α d sz t0 es b x hb hx
    rcases runFrom_flushed_mem d sz es _ b x hb hx with h | h
    · simp [initState] at h
    · exact h

theorem tenant_label_roundtrip_witness :
    (WriteSpan "dflt" (some (fun _ => ["acme", "other"] : MD)) (0 : Nat)).1 =
      some ⟨0, tenantLabel (fun _ => ["acme", "other"] : MD)⟩ ∧
    ∃ n, Event.arrive n (⟨(7 : Nat), "acme"⟩ : SpanAndTenant Nat) ∈
      [Event.arrive 2 (⟨(7 : Nat), "acme"⟩ : SpanAndTenant Nat), Event.finishSig 9] :=
  ⟨tenant_label_roundtrip.1 Nat "dflt" (fun _ => ["acme", "other"]) 0,
   tenant_label_roundtrip.2 Nat 1 4 0
     [Event.arrive 2 ⟨7, "acme"⟩, Event.finishSig 9] [⟨7, "acme"⟩] ⟨7, "acme"⟩
     (by decide) (by decide)⟩

/-- C10: a `WriteSpan` call whose context has a carrier but whose tenant
key yields an empty value list enqueues the span with tenant equal to the
empty string (it is not dropped), and the construction-time default tenant
is never consulted: the result is independent of it. -/
theorem empty_tenant_list_not_dropped :
    (∀ (α : Type) (dflt : String) (md : MD) (span : α),
      md.Get xTenantKey = [] →
      WriteSpan dflt (some md) span = (some ⟨span, ""⟩, none)) ∧
    (∀ (α : Type) (d1 d2 : String) (ctx : Option MD) (span : α),
      WriteSpan d1 ctx span = WriteSpan d2 ctx span) := by
  constructor
  · intro α dflt md span h
    simp [WriteSpan, h]
  · intro α d1 d2 ctx span
    rfl

theorem empty_tenant_list_not_dropped_witness :
    WriteSpan "construction-default" (some ((fun _ => []) : MD)) (0 : Nat) =
      (some ⟨0, ""⟩, none) :=
  empty_tenant_list_not_dropped.1 Nat "construction-default" (fun _ => []) 0 rfl

/-- C9: no matter how many `SpanWriter` instances are constructed, the two
flush counters are registered exactly once and the registry's
already-registered panic branch is never taken: `k` sequential
`registerMetrics` calls from the initial process state succeed with each
counter registered exactly once. -/
theorem metrics_registered_exactly_once (k : Nat) (hk : 1 ≤ k) :
    registerN k initMetrics = Except.ok ⟨true, 1, 1⟩ := by
  cases k with
  | zero => omega
  | succ m =>
    simp [registerN, registerMetrics, mustRegister, initMetrics, registerN_done]

theorem metrics_registered_exactly_once_witness :
    1 ≤ 3 ∧ registerN 3 initMetrics = Except.ok ⟨true, 1, 1⟩ :=
  ⟨by decide, metrics_registered_exactly_once 3 (by decide)⟩

end JaegerClickhouse
